import Mathlib

/-!
Verification of the object-store and consistency-validation layer of the
Fornjot B-rep kernel (`crates/fj-kernel/src/shape`).

The validation logic is translated from `crates/fj-kernel/src/shape/validate.rs`.
The entity value types, the store/handle model and the facade live in the
`topology`, `stores` and `api` modules of the same crate, which are not part of
the provided sources; those are modelled from the spec (sections 3, 4.1, 4.3),
each such definition marked `Modelled from the spec:` in its doc comment.

The source's `Scalar` is an f64; it is modelled here by the exact rationals.
The vertex uniqueness check compares `(a - b).magnitude() < min_distance`;
`magnitudeLt` below encodes that comparison computably over rationals, and
`magnitudeLt_iff` proves it equivalent to the real-valued statement
`Real.sqrt (distSq a b) < t`.
-/

set_option linter.dupNamespace false

namespace Fornjot

/-- The source's `Scalar` (an f64), modelled as an exact rational. -/
abbrev Scalar := ℚ

/-- Modelled from the spec: a `Handle<T>` is an opaque, identity-compared
reference into one store; it dereferences (`get`) to the underlying value
(in the source a handle owns an `Arc` to the stored value, so the value
travels with the handle). Identity is modelled by a numeric id. -/
structure Handle (α : Type) where
  id : Nat
  value : α
deriving DecidableEq, Repr

/-- Modelled from the spec: `Handle::get`, dereference to the underlying value. -/
def Handle.get {α : Type} (h : Handle α) : α :=
  h.value

/-- Modelled from the spec: a `Store<T>` is an append-only ordered collection
of handles, supporting identity-based membership, dereference and
insertion-ordered traversal. -/
structure Store (α : Type) where
  entries : List (Handle α)
deriving DecidableEq, Repr

/-- Modelled from the spec: `Store::contains`, identity-based membership. -/
def Store.contains {α : Type} (s : Store α) (h : Handle α) : Bool :=
  s.entries.any fun e => e.id == h.id

/-- Modelled from the spec: `Store::iter`, insertion-ordered traversal. -/
def Store.iter {α : Type} (s : Store α) : List (Handle α) :=
  s.entries

/-- Modelled from the spec: a handle id not yet used by any entry of the store
(insertion assigns a fresh handle, never reused). -/
def Store.freshId {α : Type} (s : Store α) : Nat :=
  (s.entries.map Handle.id).foldl Nat.max 0 + 1

/-- Modelled from the spec: `Store::insert`, which always succeeds and returns
a fresh handle to the appended value. -/
def Store.insert {α : Type} (s : Store α) (value : α) : Handle α × Store α :=
  (⟨s.freshId, value⟩, ⟨s.entries ++ [⟨s.freshId, value⟩]⟩)

/-- `fj_math::Point<3>`: a position value, components modelled as rationals. -/
structure Point3 where
  x : ℚ
  y : ℚ
  z : ℚ
deriving DecidableEq, Repr

/-- The squared Euclidean distance between two positions, i.e. the squared
magnitude of the difference vector computed by the source's
`(existing.get().point() - self.point()).magnitude()`. -/
def distSq (p q : Point3) : ℚ :=
  (p.x - q.x) ^ 2 + (p.y - q.y) ^ 2 + (p.z - q.z) ^ 2

/-- The source's comparison `(p - q).magnitude() < t`. Over the reals,
`Real.sqrt d < t ↔ 0 < t ∧ d < t * t` for `d ≥ 0`, which is the computable
form used here; `magnitudeLt_iff` proves the equivalence. -/
def magnitudeLt (p q : Point3) (t : Scalar) : Bool :=
  decide (0 < t ∧ distSq p q < t * t)

/-- `geometry::Curve`: a leaf geometric value with no cross-references; its
payload is irrelevant to validation and is modelled as `Unit`. -/
abbrev Curve := Unit

/-- `geometry::Surface`: a leaf geometric value, payload irrelevant to
validation. -/
abbrev Surface := Unit

/-- Modelled from the spec: `topology::Vertex` holds a handle to a point. -/
structure Vertex where
  point : Handle Point3
deriving DecidableEq, Repr

/-- Modelled from the spec: `Vertex::point()`, the position obtained by
dereferencing the vertex's point handle. -/
def Vertex.pointVal (v : Vertex) : Point3 :=
  v.point.get

/-- Modelled from the spec: `topology::Edge` holds a handle to a curve and
zero or two handles to vertices. -/
structure Edge where
  curve : Handle Curve
  vertices : Option (Handle Vertex × Handle Vertex)
deriving DecidableEq, Repr

/-- The vertex handles an edge carries, in the order the source's nested
`for vertices in &self.vertices { for vertex in vertices }` visits them. -/
def Edge.vertexList (e : Edge) : List (Handle Vertex) :=
  match e.vertices with
  | none => []
  | some (a, b) => [a, b]

/-- Modelled from the spec: `topology::Cycle` is an ordered sequence of edge
handles. -/
structure Cycle where
  edges : List (Handle Edge)
deriving DecidableEq, Repr

/-- Modelled from the spec: `topology::Face` is a tagged variant; `Face.Face`
carries a surface handle plus exterior and interior cycle handle lists
(further payload, matched by `..` in the source, does not take part in
validation), and `Face.Triangles` carries no symbolic boundary references. -/
inductive Face where
  | Face (surface : Handle Surface) (exteriors : List (Handle Cycle)) (interiors : List (Handle Cycle))
  | Triangles
deriving DecidableEq, Repr

/-- Modelled from the spec: the aggregate `Stores`, one independent store per
entity kind. -/
structure Stores where
  points : Store Point3
  curves : Store Curve
  surfaces : Store Surface
  vertices : Store Vertex
  edges : Store Edge
  cycles : Store Cycle
  faces : Store Face
deriving DecidableEq, Repr

/-- `StructuralIssues` from `validate.rs`: per-field detail of a structural
validation failure. The source's `HashSet` fields (keyed by handle identity)
are modelled as duplicate-free lists built by `hsInsert`. -/
structure StructuralIssues where
  missing_curve : Option (Handle Curve)
  missing_vertices : List (Handle Vertex)
  missing_edges : List (Handle Edge)
  missing_surface : Option (Handle Surface)
  missing_cycles : List (Handle Cycle)
deriving DecidableEq, Repr

/-- `StructuralIssues::default()`: every field empty. -/
def StructuralIssues.default : StructuralIssues :=
  ⟨none, [], [], none, []⟩

/-- `ValidationError` from `validate.rs`. -/
inductive ValidationError where
  | Structural (issues : StructuralIssues)
  | Uniqueness
  | Geometric
deriving DecidableEq, Repr

/-- Identity-based membership of a handle in a list of handles, the model of
membership in a `HashSet<Handle<T>>` (the source hashes and compares handles
by identity). -/
def memId {α : Type} (h : Handle α) (l : List (Handle α)) : Bool :=
  l.any fun e => e.id == h.id

/-- `HashSet::insert` on the list model: append unless a handle of the same
identity is already present. -/
def hsInsert {α : Type} (s : List (Handle α)) (h : Handle α) : List (Handle α) :=
  if memId h s then s else s ++ [h]

/-- The source pattern `for x in xs { if !store.contains(x) { set.insert(x) } }`
starting from an empty set. -/
def collectMissing {α : Type} (store : Store α) (hs : List (Handle α)) : List (Handle α) :=
  hs.foldl (fun acc h => if store.contains h then acc else hsInsert acc h) []

/-- `impl Validate for Point<3>`: unconditional success. -/
def validatePoint (_p : Point3) (_min_distance : Scalar) (_stores : Stores) :
    Except ValidationError Unit :=
  .ok ()

/-- `impl Validate for Curve`: unconditional success. -/
def validateCurve (_c : Curve) (_min_distance : Scalar) (_stores : Stores) :
    Except ValidationError Unit :=
  .ok ()

/-- `impl Validate for Surface`: unconditional success. -/
def validateSurface (_s : Surface) (_min_distance : Scalar) (_stores : Stores) :
    Except ValidationError Unit :=
  .ok ()

/-- `impl Validate for Vertex`: fail with `StructuralIssues::default()` if the
point handle is absent from the point store; otherwise fail with `Uniqueness`
if any already-stored vertex's position is at distance strictly below
`min_distance` from the candidate's; otherwise succeed. -/
def validateVertex (v : Vertex) (min_distance : Scalar) (stores : Stores) :
    Except ValidationError Unit :=
  if !(stores.points.contains v.point) then
    .error (.Structural StructuralIssues.default)
  else if stores.vertices.iter.any
      (fun existing => magnitudeLt existing.get.pointVal v.pointVal min_distance) then
    .error .Uniqueness
  else
    .ok ()

/-- `impl Validate for Edge`: record the curve handle if absent from the curve
store, collect each absent vertex handle, and fail structurally if anything
was missing. -/
def validateEdge (e : Edge) (_min_distance : Scalar) (stores : Stores) :
    Except ValidationError Unit :=
  let missing_curve : Option (Handle Curve) :=
    if !(stores.curves.contains e.curve) then some e.curve else none
  let missing_vertices : List (Handle Vertex) :=
    collectMissing stores.vertices e.vertexList
  if missing_curve.isSome || !missing_vertices.isEmpty then
    .error (.Structural ⟨missing_curve, missing_vertices, [], none, []⟩)
  else
    .ok ()

/-- `impl Validate for Cycle`: collect each edge handle absent from the edge
store and fail structurally if any; no closure, self-intersection or
duplicate-cycle check exists in the source. -/
def validateCycle (c : Cycle) (_min_distance : Scalar) (stores : Stores) :
    Except ValidationError Unit :=
  let missing_edges : List (Handle Edge) :=
    collectMissing stores.edges c.edges
  if !missing_edges.isEmpty then
    .error (.Structural ⟨none, [], missing_edges, none, []⟩)
  else
    .ok ()

/-- `impl Validate for Face`: for the `Face::Face` variant, record the surface
handle if absent and collect each absent cycle handle across the chained
exterior and interior lists, failing structurally if anything was missing;
the `Face::Triangles` variant always succeeds. -/
def validateFace (f : Face) (_min_distance : Scalar) (stores : Stores) :
    Except ValidationError Unit :=
  match f with
  | .Face surface exteriors interiors =>
    let missing_surface : Option (Handle Surface) :=
      if !(stores.surfaces.contains surface) then some surface else none
    let missing_cycles : List (Handle Cycle) :=
      collectMissing stores.cycles (exteriors ++ interiors)
    if missing_surface.isSome || !missing_cycles.isEmpty then
      .error (.Structural ⟨none, [], [], missing_surface, missing_cycles⟩)
    else
      .ok ()
  | .Triangles => .ok ()

/-- Modelled from the spec: the facade's `add_point` (`shape/api.rs`, not among
the provided sources): validate against the current stores; on success insert
and return the fresh handle, on failure return the error with the stores
untouched. -/
def addPoint (stores : Stores) (tol : Scalar) (p : Point3) :
    Except ValidationError (Handle Point3) × Stores :=
  match validatePoint p tol stores with
  | .error e => (.error e, stores)
  | .ok () =>
    let r := stores.points.insert p
    (.ok r.1, { stores with points := r.2 })

/-- Modelled from the spec: the facade's `add_curve`. -/
def addCurve (stores : Stores) (tol : Scalar) (c : Curve) :
    Except ValidationError (Handle Curve) × Stores :=
  match validateCurve c tol stores with
  | .error e => (.error e, stores)
  | .ok () =>
    let r := stores.curves.insert c
    (.ok r.1, { stores with curves := r.2 })

/-- Modelled from the spec: the facade's `add_surface`. -/
def addSurface (stores : Stores) (tol : Scalar) (sf : Surface) :
    Except ValidationError (Handle Surface) × Stores :=
  match validateSurface sf tol stores with
  | .error e => (.error e, stores)
  | .ok () =>
    let r := stores.surfaces.insert sf
    (.ok r.1, { stores with surfaces := r.2 })

/-- Modelled from the spec: the facade's `add_vertex`. -/
def addVertex (stores : Stores) (tol : Scalar) (v : Vertex) :
    Except ValidationError (Handle Vertex) × Stores :=
  match validateVertex v tol stores with
  | .error e => (.error e, stores)
  | .ok () =>
    let r := stores.vertices.insert v
    (.ok r.1, { stores with vertices := r.2 })

/-- Modelled from the spec: the facade's `add_edge`. -/
def addEdge (stores : Stores) (tol : Scalar) (e : Edge) :
    Except ValidationError (Handle Edge) × Stores :=
  match validateEdge e tol stores with
  | .error err => (.error err, stores)
  | .ok () =>
    let r := stores.edges.insert e
    (.ok r.1, { stores with edges := r.2 })

/-- Modelled from the spec: the facade's `add_cycle`. -/
def addCycle (stores : Stores) (tol : Scalar) (c : Cycle) :
    Except ValidationError (Handle Cycle) × Stores :=
  match validateCycle c tol stores with
  | .error e => (.error e, stores)
  | .ok () =>
    let r := stores.cycles.insert c
    (.ok r.1, { stores with cycles := r.2 })

/-- Modelled from the spec: the facade's `add_face`. -/
def addFace (stores : Stores) (tol : Scalar) (f : Face) :
    Except ValidationError (Handle Face) × Stores :=
  match validateFace f tol stores with
  | .error e => (.error e, stores)
  | .ok () =>
    let r := stores.faces.insert f
    (.ok r.1, { stores with faces := r.2 })

/-- Whether a validation outcome is the `Geometric` failure marker. -/
def isGeometric (r : Except ValidationError Unit) : Bool :=
  match r with
  | .error .Geometric => true
  | _ => false

/-- Concrete fixture: a point handle with id 0 at the origin. -/
def pHandle0 : Handle Point3 :=
  ⟨0, ⟨0, 0, 0⟩⟩

/-- Concrete fixture: the empty aggregate store. -/
def emptyStores : Stores :=
  ⟨⟨[]⟩, ⟨[]⟩, ⟨[]⟩, ⟨[]⟩, ⟨[]⟩, ⟨[]⟩, ⟨[]⟩⟩

/-- Concrete fixture: stores holding only the point `pHandle0`. -/
def storesWithPoint : Stores :=
  { emptyStores with points := ⟨[pHandle0]⟩ }

/-- Concrete fixture: a vertex referencing `pHandle0`. -/
def vA : Vertex :=
  ⟨pHandle0⟩

/-- Concrete fixture: a stored vertex handle at the origin. -/
def vHandleNear : Handle Vertex :=
  ⟨0, ⟨pHandle0⟩⟩

/-- Concrete fixture: stores holding only the vertex `vHandleNear` (its point
is not in the point store). -/
def storesVertexOnly : Stores :=
  { emptyStores with vertices := ⟨[vHandleNear]⟩ }

/-- Concrete fixture: a vertex at the origin whose point handle (id 7) is
absent from `storesVertexOnly`. -/
def vB : Vertex :=
  ⟨⟨7, ⟨0, 0, 0⟩⟩⟩

/-- Concrete fixture: a curve handle with id 0. -/
def cHandle0 : Handle Curve :=
  ⟨0, ()⟩

/-- Concrete fixture: two vertex handles with ids 1 and 2. -/
def vHandle1 : Handle Vertex :=
  ⟨1, ⟨pHandle0⟩⟩

/-- Concrete fixture: see `vHandle1`. -/
def vHandle2 : Handle Vertex :=
  ⟨2, ⟨pHandle0⟩⟩

/-- Concrete fixture: a bounded edge whose curve and both vertex handles are
absent from `emptyStores`. -/
def eA : Edge :=
  ⟨cHandle0, some (vHandle1, vHandle2)⟩

/-- Concrete fixture: the structural issues produced by validating `eA`
against `emptyStores`. -/
def iWitE : StructuralIssues :=
  ⟨some cHandle0, [vHandle1, vHandle2], [], none, []⟩

/-- Concrete fixture: an edge handle with id 0. -/
def eHandle0 : Handle Edge :=
  ⟨0, eA⟩

/-- Concrete fixture: a cycle referencing the absent edge handle `eHandle0`. -/
def cyA : Cycle :=
  ⟨[eHandle0]⟩

/-- Concrete fixture: the structural issues produced by validating `cyA`
against `emptyStores`. -/
def iWitC : StructuralIssues :=
  ⟨none, [], [eHandle0], none, []⟩

/-- Concrete fixture: a surface handle with id 0. -/
def sHandle0 : Handle Surface :=
  ⟨0, ()⟩

/-- Concrete fixture: a cycle handle with id 0. -/
def cyHandle0 : Handle Cycle :=
  ⟨0, cyA⟩

/-- Concrete fixture: the structural issues produced by validating the face
`Face.Face sHandle0 [cyHandle0] []` against `emptyStores`. -/
def iWitF : StructuralIssues :=
  ⟨none, [], [], some sHandle0, [cyHandle0]⟩

/-- Squared distances are nonnegative. -/
theorem distSq_nonneg (p q : Point3) : 0 ≤ distSq p q := by
  unfold distSq
  positivity

/-- `magnitudeLt` is exactly the real-valued comparison
`sqrt (distSq p q) < t` performed by the source's
`(a - b).magnitude() < min_distance`. -/
theorem magnitudeLt_iff (p q : Point3) (t : Scalar) :
    magnitudeLt p q t = true ↔ Real.sqrt ((distSq p q : ℚ) : ℝ) < (t : ℝ) := by
  unfold magnitudeLt
  rw [decide_eq_true_iff]
  constructor
  · rintro ⟨ht, hd⟩
    have ht' : (0 : ℝ) < (t : ℝ) := by exact_mod_cast ht
    rw [Real.sqrt_lt' ht']
    have hd' : ((distSq p q : ℚ) : ℝ) < (t : ℝ) * (t : ℝ) := by exact_mod_cast hd
    nlinarith [hd']
  · intro hlt
    have ht' : (0 : ℝ) < (t : ℝ) := lt_of_le_of_lt (Real.sqrt_nonneg _) hlt
    have ht : 0 < t := by exact_mod_cast ht'
    have hd' : ((distSq p q : ℚ) : ℝ) < (t : ℝ) ^ 2 := (Real.sqrt_lt' ht').mp hlt
    have hd : distSq p q < t * t := by
      have h2 : ((distSq p q : ℚ) : ℝ) < (t : ℝ) * (t : ℝ) := by nlinarith [hd']
      exact_mod_cast h2
    exact ⟨ht, hd⟩

/-- Identity membership in the empty list is false. -/
theorem memId_nil {α : Type} (h : Handle α) : memId h ([] : List (Handle α)) = false :=
  rfl

/-- Identity membership distributes over append. -/
theorem memId_append {α : Type} (h : Handle α) (l1 l2 : List (Handle α)) :
    memId h (l1 ++ l2) = (memId h l1 || memId h l2) := by
  unfold memId
  exact List.any_append

/-- A handle with the same identity has the same store membership. -/
theorem Store.contains_congr {α : Type} (s : Store α) (x h : Handle α)
    (hid : x.id = h.id) : s.contains x = s.contains h := by
  unfold Store.contains
  simp only [hid]

/-- Membership after a `HashSet::insert` step. -/
theorem memId_hsInsert {α : Type} (acc : List (Handle α)) (h h' : Handle α) :
    memId h (hsInsert acc h') = (memId h acc || h'.id == h.id) := by
  unfold hsInsert
  by_cases hc : memId h' acc = true
  · rw [if_pos hc]
    by_cases he : h'.id = h.id
    · have hmem : memId h acc = true := by
        unfold memId at hc ⊢
        rw [List.any_eq_true] at hc ⊢
        obtain ⟨e, hemem, hbeq⟩ := hc
        refine ⟨e, hemem, ?_⟩
        rw [beq_iff_eq] at hbeq ⊢
        omega
      simp [hmem]
    · simp [beq_iff_eq, he]
  · rw [if_neg hc]
    rw [memId_append]
    unfold memId
    simp

/-- Membership in the fold that collects missing handles, generalized over the
accumulator. -/
theorem memId_collect_fold {α : Type} (store : Store α) (l : List (Handle α))
    (h : Handle α) :
    ∀ acc : List (Handle α),
      (memId h (l.foldl (fun acc h' => if store.contains h' then acc else hsInsert acc h') acc) = true
        ↔ (memId h acc = true ∨ ∃ x ∈ l, x.id = h.id ∧ store.contains x = false)) := by
  induction l with
  | nil =>
    intro acc
    simp
  | cons x l ih =>
    intro acc
    simp only [List.foldl_cons]
    rw [ih]
    by_cases hc : store.contains x = true
    · rw [if_pos hc]
      simp only [List.mem_cons]
      constructor
      · rintro (hacc | ⟨y, hy, hid, hcy⟩)
        · exact Or.inl hacc
        · exact Or.inr ⟨y, Or.inr hy, hid, hcy⟩
      · rintro (hacc | ⟨y, (rfl | hy), hid, hcy⟩)
        · exact Or.inl hacc
        · rw [hc] at hcy
          cases hcy
        · exact Or.inr ⟨y, hy, hid, hcy⟩
    · rw [if_neg hc]
      rw [Bool.not_eq_true] at hc
      simp only [memId_hsInsert, Bool.or_eq_true, List.mem_cons, beq_iff_eq]
      constructor
      · rintro ((hacc | hid) | ⟨y, hy, hid, hcy⟩)
        · exact Or.inl hacc
        · exact Or.inr ⟨x, Or.inl rfl, hid, hc⟩
        · exact Or.inr ⟨y, Or.inr hy, hid, hcy⟩
      · rintro (hacc | ⟨y, (rfl | hy), hid, hcy⟩)
        · exact Or.inl (Or.inl hacc)
        · exact Or.inl (Or.inr hid)
        · exact Or.inr ⟨y, hy, hid, hcy⟩

/-- A handle is in the collected missing set iff it is (by identity) among the
scanned handles and absent from the store. -/
theorem memId_collectMissing {α : Type} (store : Store α) (l : List (Handle α))
    (h : Handle α) :
    memId h (collectMissing store l) = true
      ↔ (memId h l = true ∧ store.contains h = false) := by
  unfold collectMissing
  rw [memId_collect_fold]
  simp only [memId_nil, Bool.false_eq_true, false_or]
  constructor
  · rintro ⟨x, hx, hid, hcx⟩
    constructor
    · unfold memId
      rw [List.any_eq_true]
      exact ⟨x, hx, by rw [beq_iff_eq]; exact hid⟩
    · rw [← Store.contains_congr store x h hid]
      exact hcx
  · rintro ⟨hmem, hch⟩
    unfold memId at hmem
    rw [List.any_eq_true] at hmem
    obtain ⟨x, hx, hbeq⟩ := hmem
    rw [beq_iff_eq] at hbeq
    refine ⟨x, hx, hbeq, ?_⟩
    rw [Store.contains_congr store x h hbeq]
    exact hch

/-- The collecting fold leaves the accumulator untouched when every scanned
handle is present. -/
theorem collect_fold_of_all_present {α : Type} (store : Store α)
    (l : List (Handle α)) :
    ∀ acc : List (Handle α), (∀ x ∈ l, store.contains x = true) →
      l.foldl (fun acc h' => if store.contains h' then acc else hsInsert acc h') acc = acc := by
  induction l with
  | nil =>
    intro acc _
    rfl
  | cons x l ih =>
    intro acc hall
    simp only [List.foldl_cons, hall x (List.mem_cons_self x l), if_true]
    exact ih acc fun y hy => hall y (List.mem_cons_of_mem x hy)

/-- The collected missing set is empty iff every scanned handle is present. -/
theorem collectMissing_eq_nil_iff {α : Type} (store : Store α)
    (l : List (Handle α)) :
    collectMissing store l = [] ↔ ∀ x ∈ l, store.contains x = true := by
  constructor
  · intro hnil x hx
    by_contra hcx
    rw [Bool.not_eq_true] at hcx
    have hm : memId x (collectMissing store l) = true := by
      rw [memId_collectMissing]
      refine ⟨?_, hcx⟩
      unfold memId
      rw [List.any_eq_true]
      exact ⟨x, hx, by rw [beq_iff_eq]⟩
    rw [hnil] at hm
    exact absurd hm (by rw [memId_nil]; exact Bool.false_ne_true)
  · intro hall
    unfold collectMissing
    exact collect_fold_of_all_present store l [] hall

/-- The collecting fold only looks at store membership of the scanned handles,
generalized over the accumulator. -/
theorem collect_fold_congr {α : Type} (s1 s2 : Store α) (l : List (Handle α))
    (hagree : ∀ x ∈ l, s1.contains x = s2.contains x) :
    ∀ acc : List (Handle α),
      l.foldl (fun acc h' => if s1.contains h' then acc else hsInsert acc h') acc
        = l.foldl (fun acc h' => if s2.contains h' then acc else hsInsert acc h') acc := by
  induction l with
  | nil =>
    intro acc
    rfl
  | cons x l ih =>
    intro acc
    simp only [List.foldl_cons, hagree x (List.mem_cons_self x l)]
    exact ih (fun y hy => hagree y (List.mem_cons_of_mem x hy)) _

/-- `collectMissing` depends only on membership of the scanned handles. -/
theorem collectMissing_congr {α : Type} (s1 s2 : Store α) (l : List (Handle α))
    (hagree : ∀ x ∈ l, s1.contains x = s2.contains x) :
    collectMissing s1 l = collectMissing s2 l := by
  unfold collectMissing
  exact collect_fold_congr s1 s2 l hagree []

/-- Bool-level form of `memId_collectMissing`: the collected missing set is
exactly the absent-by-identity subset of the scanned handles. -/
theorem memId_collectMissing_bool {α : Type} (store : Store α) (l : List (Handle α))
    (h : Handle α) :
    memId h (collectMissing store l) = (memId h l && !(store.contains h)) := by
  cases hA : memId h (collectMissing store l) with
  | true =>
    obtain ⟨h1, h2⟩ := (memId_collectMissing store l h).mp hA
    rw [h1, h2]
    rfl
  | false =>
    cases hB : (memId h l && !(store.contains h)) with
    | true =>
      rw [Bool.and_eq_true, Bool.not_eq_true'] at hB
      have := (memId_collectMissing store l h).mpr hB
      rw [hA] at this
      cases this
    | false => rfl

/-- The start value bounds a fold of `Nat.max`. -/
theorem le_foldl_max (l : List Nat) (a : Nat) : a ≤ l.foldl Nat.max a := by
  induction l generalizing a with
  | nil => exact Nat.le_refl a
  | cons x l ih => exact Nat.le_trans (Nat.le_max_left a x) (ih (Nat.max a x))

/-- Every member bounds a fold of `Nat.max`. -/
theorem mem_le_foldl_max (l : List Nat) :
    ∀ a x : Nat, x ∈ l → x ≤ l.foldl Nat.max a := by
  induction l with
  | nil =>
    intro a x hx
    cases hx
  | cons y l ih =>
    intro a x hx
    rcases List.mem_cons.mp hx with h | h
    · subst h
      exact Nat.le_trans (Nat.le_max_right a x) (le_foldl_max l (Nat.max a x))
    · exact ih (Nat.max a y) x h

/-- A freshly assigned handle id is absent from the store. -/
theorem Store.contains_fresh {α : Type} (s : Store α) (v : α) :
    s.contains ⟨s.freshId, v⟩ = false := by
  unfold Store.contains Store.freshId
  rw [Bool.eq_false_iff]
  intro hc
  rw [List.any_eq_true] at hc
  obtain ⟨e, he, hbeq⟩ := hc
  rw [beq_iff_eq] at hbeq
  have hbeq' : e.id = (s.entries.map Handle.id).foldl Nat.max 0 + 1 := hbeq
  have hle : e.id ≤ (s.entries.map Handle.id).foldl Nat.max 0 :=
    mem_le_foldl_max _ 0 e.id (List.mem_map_of_mem Handle.id he)
  omega

/-- A structural-or-success outcome is never the `Geometric` marker. -/
theorem isGeometric_ite (c : Prop) [Decidable c] (i : StructuralIssues) :
    isGeometric (if c then Except.error (ValidationError.Structural i) else Except.ok ()) = false := by
  split
  · rfl
  · rfl

/-- C6: Point, Curve and Surface validation succeed unconditionally: for every
candidate value of these three kinds, every tolerance and every store state,
validation returns success. -/
theorem geometric_leaf_validation_always_succeeds :
    ∀ (p : Point3) (c : Curve) (sf : Surface) (t : Scalar) (s : Stores),
      validatePoint p t s = .ok () ∧ validateCurve c t s = .ok ()
        ∧ validateSurface sf t s = .ok () :=
  fun _ _ _ _ _ => ⟨rfl, rfl, rfl⟩

/-- C9: for every entity kind other than Vertex, the validation result is
completely independent of the tolerance argument: identical outcomes and
identical error payloads for any two tolerances. -/
theorem validation_tolerance_independent (t1 t2 : Scalar) (s : Stores) :
    (∀ p : Point3, validatePoint p t1 s = validatePoint p t2 s)
    ∧ (∀ c : Curve, validateCurve c t1 s = validateCurve c t2 s)
    ∧ (∀ sf : Surface, validateSurface sf t1 s = validateSurface sf t2 s)
    ∧ (∀ e : Edge, validateEdge e t1 s = validateEdge e t2 s)
    ∧ (∀ c : Cycle, validateCycle c t1 s = validateCycle c t2 s)
    ∧ (∀ f : Face, validateFace f t1 s = validateFace f t2 s) :=
  ⟨fun _ => rfl, fun _ => rfl, fun _ => rfl, fun _ => rfl, fun _ => rfl, fun _ => rfl⟩

/-- C8: the `Geometric` validation error variant is never produced, for every
entity kind, candidate, tolerance and store state. -/
theorem geometric_marker_never_produced (t : Scalar) (s : Stores) :
    (∀ p : Point3, isGeometric (validatePoint p t s) = false)
    ∧ (∀ c : Curve, isGeometric (validateCurve c t s) = false)
    ∧ (∀ sf : Surface, isGeometric (validateSurface sf t s) = false)
    ∧ (∀ v : Vertex, isGeometric (validateVertex v t s) = false)
    ∧ (∀ e : Edge, isGeometric (validateEdge e t s) = false)
    ∧ (∀ c : Cycle, isGeometric (validateCycle c t s) = false)
    ∧ (∀ f : Face, isGeometric (validateFace f t s) = false) := by
  refine ⟨fun p => rfl, fun c => rfl, fun sf => rfl, fun v => ?_, fun e => ?_,
    fun c => ?_, fun f => ?_⟩
  · unfold validateVertex
    split
    · rfl
    · split
      · rfl
      · rfl
  · unfold validateEdge
    exact isGeometric_ite _ _
  · unfold validateCycle
    exact isGeometric_ite _ _
  · unfold validateFace
    cases f with
    | Face surface exteriors interiors => exact isGeometric_ite _ _
    | Triangles => rfl

/-- C7: when Vertex validation fails because the referenced point handle is
absent from the point store, the structural error carries no per-field detail:
every field of the structural-issues record is empty. -/
theorem vertex_structural_failure_carries_no_detail (v : Vertex) (t : Scalar)
    (s : Stores) (h : s.points.contains v.point = false) :
    validateVertex v t s = .error (.Structural ⟨none, [], [], none, []⟩) := by
  unfold validateVertex
  rw [h]
  rfl

/-- Witness for C7 at a concrete vertex and the empty store. -/
theorem vertex_structural_failure_carries_no_detail_witness :
    validateVertex vA 1 emptyStores = .error (.Structural ⟨none, [], [], none, []⟩) :=
  vertex_structural_failure_carries_no_detail vA 1 emptyStores (by decide)

/-- C10: the point-existence check takes strict precedence over the uniqueness
check: an absent point handle yields the structural error unconditionally, and
the uniqueness error is reachable only when the point handle is present. -/
theorem vertex_point_check_precedence (v : Vertex) (t : Scalar) (s : Stores) :
    (s.points.contains v.point = false →
      validateVertex v t s = .error (.Structural StructuralIssues.default))
    ∧ (validateVertex v t s = .error .Uniqueness →
      s.points.contains v.point = true) := by
  constructor
  · intro h
    unfold validateVertex
    rw [h]
    rfl
  · intro h
    by_contra hc
    rw [Bool.not_eq_true] at hc
    unfold validateVertex at h
    rw [hc] at h
    simp at h

/-- Witness for C10 at a concrete vertex whose point handle is absent while a
stored vertex sits within tolerance of its position. -/
theorem vertex_point_check_precedence_witness :
    validateVertex vB 1 storesVertexOnly = .error (.Structural StructuralIssues.default) :=
  (vertex_point_check_precedence vB 1 storesVertexOnly).1 (by decide)

/-- C1: Vertex validation fails structurally iff the point handle is absent;
given the point handle is present, it fails with the uniqueness error iff some
already-stored vertex's position is at distance strictly less than the
tolerance from the candidate's position, and succeeds otherwise. -/
theorem vertex_validation_characterization (v : Vertex) (t : Scalar) (s : Stores) :
    ((∃ i, validateVertex v t s = .error (.Structural i))
      ↔ s.points.contains v.point = false)
    ∧ (s.points.contains v.point = true →
        ((validateVertex v t s = .error .Uniqueness)
          ↔ ∃ ex ∈ s.vertices.iter,
              Real.sqrt ((distSq ex.get.pointVal v.pointVal : ℚ) : ℝ) < (t : ℝ))
        ∧ ((validateVertex v t s = .ok ())
          ↔ ¬ ∃ ex ∈ s.vertices.iter,
              Real.sqrt ((distSq ex.get.pointVal v.pointVal : ℚ) : ℝ) < (t : ℝ))) := by
  have anyiff : (s.vertices.iter.any fun ex => magnitudeLt ex.get.pointVal v.pointVal t) = true
      ↔ ∃ ex ∈ s.vertices.iter,
          Real.sqrt ((distSq ex.get.pointVal v.pointVal : ℚ) : ℝ) < (t : ℝ) := by
    rw [List.any_eq_true]
    constructor
    · rintro ⟨ex, hm, hb⟩
      exact ⟨ex, hm, (magnitudeLt_iff _ _ _).mp hb⟩
    · rintro ⟨ex, hm, hb⟩
      exact ⟨ex, hm, (magnitudeLt_iff _ _ _).mpr hb⟩
  by_cases hp : s.points.contains v.point = true
  · by_cases ha : (s.vertices.iter.any fun ex => magnitudeLt ex.get.pointVal v.pointVal t) = true
    · have hval : validateVertex v t s = .error .Uniqueness := by
        unfold validateVertex
        rw [hp, ha]
        rfl
      refine ⟨?_, fun _ => ⟨?_, ?_⟩⟩
      · constructor
        · rintro ⟨i, hi⟩
          rw [hval] at hi
          simp at hi
        · intro hfalse
          rw [hp] at hfalse
          cases hfalse
      · rw [hval]
        exact iff_of_true rfl (anyiff.mp ha)
      · rw [hval]
        constructor
        · intro hok
          simp at hok
        · intro hno
          exact absurd (anyiff.mp ha) hno
    · have ha' : (s.vertices.iter.any fun ex => magnitudeLt ex.get.pointVal v.pointVal t) = false :=
        Bool.not_eq_true _ |>.mp ha
      have hval : validateVertex v t s = .ok () := by
        unfold validateVertex
        rw [hp, ha']
        rfl
      refine ⟨?_, fun _ => ⟨?_, ?_⟩⟩
      · constructor
        · rintro ⟨i, hi⟩
          rw [hval] at hi
          simp at hi
        · intro hfalse
          rw [hp] at hfalse
          cases hfalse
      · rw [hval]
        constructor
        · intro hu
          simp at hu
        · intro hex
          exact absurd (anyiff.mpr hex) ha
      · rw [hval]
        exact iff_of_true rfl fun hex => ha (anyiff.mpr hex)
  · have hp' : s.points.contains v.point = false := Bool.not_eq_true _ |>.mp hp
    have hval : validateVertex v t s = .error (.Structural StructuralIssues.default) := by
      unfold validateVertex
      rw [hp']
      rfl
    refine ⟨iff_of_true ⟨StructuralIssues.default, hval⟩ hp', fun hcontra => ?_⟩
    rw [hp'] at hcontra
    cases hcontra

/-- Witness for C1 at a concrete vertex whose point handle is present. -/
theorem vertex_validation_characterization_witness :
    (validateVertex vA 1 storesWithPoint = .error .Uniqueness)
      ↔ ∃ ex ∈ storesWithPoint.vertices.iter,
          Real.sqrt ((distSq ex.get.pointVal vA.pointVal : ℚ) : ℝ) < ((1 : ℚ) : ℝ) :=
  ((vertex_validation_characterization vA 1 storesWithPoint).2 (by decide)).1

/-- C2: Edge validation succeeds iff the curve handle is present and every
vertex handle the edge carries is present; on failure the structural error's
missing-curve field is exactly the curve handle when absent (else empty), its
missing-vertices set is exactly the absent subset of the edge's vertex
handles, all other fields are empty, and every failure is structural. -/
theorem edge_validation_characterization (e : Edge) (t : Scalar) (s : Stores) :
    ((validateEdge e t s = .ok ())
      ↔ (s.curves.contains e.curve = true
          ∧ ∀ h ∈ e.vertexList, s.vertices.contains h = true))
    ∧ (∀ i, validateEdge e t s = .error (.Structural i) →
        i.missing_curve = (if s.curves.contains e.curve then none else some e.curve)
        ∧ (∀ h : Handle Vertex,
            memId h i.missing_vertices = (memId h e.vertexList && !(s.vertices.contains h)))
        ∧ i.missing_edges = [] ∧ i.missing_surface = none ∧ i.missing_cycles = [])
    ∧ ((validateEdge e t s = .ok ()) ∨ ∃ i, validateEdge e t s = .error (.Structural i)) := by
  by_cases hc : s.curves.contains e.curve = true
  · cases hM : collectMissing s.vertices e.vertexList with
    | nil =>
      have hval : validateEdge e t s = .ok () := by
        unfold validateEdge
        rw [hc, hM]
        rfl
      refine ⟨?_, ?_, Or.inl hval⟩
      · exact iff_of_true hval ⟨hc, (collectMissing_eq_nil_iff _ _).mp hM⟩
      · intro i hi
        rw [hval] at hi
        simp at hi
    | cons a as =>
      have hval : validateEdge e t s
          = .error (.Structural ⟨none, a :: as, [], none, []⟩) := by
        unfold validateEdge
        rw [hc, hM]
        rfl
      refine ⟨?_, ?_, Or.inr ⟨_, hval⟩⟩
      · refine iff_of_false (by rw [hval]; simp) ?_
        rintro ⟨_, hall⟩
        have := (collectMissing_eq_nil_iff s.vertices e.vertexList).mpr hall
        rw [hM] at this
        cases this
      · intro i hi
        rw [hval] at hi
        simp only [Except.error.injEq, ValidationError.Structural.injEq] at hi
        subst hi
        refine ⟨by rw [if_pos hc], fun h => ?_, rfl, rfl, rfl⟩
        rw [← hM]
        exact memId_collectMissing_bool s.vertices e.vertexList h
  · have hc' : s.curves.contains e.curve = false := Bool.not_eq_true _ |>.mp hc
    have hval : validateEdge e t s
        = .error (.Structural
            ⟨some e.curve, collectMissing s.vertices e.vertexList, [], none, []⟩) := by
      unfold validateEdge
      rw [hc']
      rfl
    refine ⟨?_, ?_, Or.inr ⟨_, hval⟩⟩
    · refine iff_of_false (by rw [hval]; simp) ?_
      rintro ⟨h1, _⟩
      rw [hc'] at h1
      cases h1
    · intro i hi
      rw [hval] at hi
      simp only [Except.error.injEq, ValidationError.Structural.injEq] at hi
      subst hi
      refine ⟨by rw [if_neg (by rw [hc']; exact Bool.false_ne_true)], fun h => ?_, rfl, rfl, rfl⟩
      exact memId_collectMissing_bool s.vertices e.vertexList h

/-- Witness for C2 at a concrete edge whose curve and vertex handles are all
absent from the empty store. -/
theorem edge_validation_characterization_witness :
    iWitE.missing_curve = (if emptyStores.curves.contains eA.curve then none else some eA.curve) :=
  ((edge_validation_characterization eA 1 emptyStores).2.1 iWitE rfl).1

/-- C3: Cycle validation succeeds iff every edge handle in the cycle's
sequence is present; on failure the structural error's missing-edges set is
exactly the absent subset of the cycle's edge handles with all other fields
empty, every failure is structural, and the outcome depends only on
edge-store membership of those handles (so no closure, self-intersection or
duplicate-cycle check takes part). -/
theorem cycle_validation_characterization (c : Cycle) (t : Scalar) (s : Stores) :
    ((validateCycle c t s = .ok ()) ↔ ∀ h ∈ c.edges, s.edges.contains h = true)
    ∧ (∀ i, validateCycle c t s = .error (.Structural i) →
        (∀ h : Handle Edge,
            memId h i.missing_edges = (memId h c.edges && !(s.edges.contains h)))
        ∧ i.missing_curve = none ∧ i.missing_vertices = []
        ∧ i.missing_surface = none ∧ i.missing_cycles = [])
    ∧ ((validateCycle c t s = .ok ()) ∨ ∃ i, validateCycle c t s = .error (.Structural i))
    ∧ (∀ s2 : Stores, (∀ h ∈ c.edges, s.edges.contains h = s2.edges.contains h) →
        validateCycle c t s = validateCycle c t s2) := by
  have hcongr : ∀ s2 : Stores, (∀ h ∈ c.edges, s.edges.contains h = s2.edges.contains h) →
      validateCycle c t s = validateCycle c t s2 := by
    intro s2 hagree
    unfold validateCycle
    rw [collectMissing_congr s.edges s2.edges c.edges hagree]
  cases hM : collectMissing s.edges c.edges with
  | nil =>
    have hval : validateCycle c t s = .ok () := by
      unfold validateCycle
      rw [hM]
      rfl
    refine ⟨iff_of_true hval ((collectMissing_eq_nil_iff _ _).mp hM), ?_, Or.inl hval, hcongr⟩
    intro i hi
    rw [hval] at hi
    simp at hi
  | cons a as =>
    have hval : validateCycle c t s
        = .error (.Structural ⟨none, [], a :: as, none, []⟩) := by
      unfold validateCycle
      rw [hM]
      rfl
    refine ⟨?_, ?_, Or.inr ⟨_, hval⟩, hcongr⟩
    · refine iff_of_false (by rw [hval]; simp) ?_
      intro hall
      have := (collectMissing_eq_nil_iff s.edges c.edges).mpr hall
      rw [hM] at this
      cases this
    · intro i hi
      rw [hval] at hi
      simp only [Except.error.injEq, ValidationError.Structural.injEq] at hi
      subst hi
      refine ⟨fun h => ?_, rfl, rfl, rfl, rfl⟩
      rw [← hM]
      exact memId_collectMissing_bool s.edges c.edges h

/-- Witness for C3 at a concrete cycle whose edge handle is absent from the
empty store. -/
theorem cycle_validation_characterization_witness :
    iWitC.missing_curve = none ∧ iWitC.missing_vertices = []
      ∧ iWitC.missing_surface = none ∧ iWitC.missing_cycles = [] :=
  ((cycle_validation_characterization cyA 1 emptyStores).2.1 iWitC rfl).2

/-- C4: boundary-variant Face validation succeeds iff the surface handle is
present and every cycle handle across the concatenated exterior and interior
lists is present; on failure the structural error's missing-surface field is
exactly the surface handle when absent, its missing-cycles set is exactly the
absent subset of the combined list (exterior and interior not distinguished),
other fields are empty and every failure is structural; the non-boundary
variant always validates successfully. -/
theorem face_validation_characterization (t : Scalar) (s : Stores) :
    (∀ (sh : Handle Surface) (ext int : List (Handle Cycle)),
      ((validateFace (.Face sh ext int) t s = .ok ())
        ↔ (s.surfaces.contains sh = true
            ∧ ∀ h ∈ ext ++ int, s.cycles.contains h = true))
      ∧ (∀ i, validateFace (.Face sh ext int) t s = .error (.Structural i) →
          i.missing_surface = (if s.surfaces.contains sh then none else some sh)
          ∧ (∀ h : Handle Cycle,
              memId h i.missing_cycles = (memId h (ext ++ int) && !(s.cycles.contains h)))
          ∧ i.missing_curve = none ∧ i.missing_vertices = [] ∧ i.missing_edges = [])
      ∧ ((validateFace (.Face sh ext int) t s = .ok ())
          ∨ ∃ i, validateFace (.Face sh ext int) t s = .error (.Structural i)))
    ∧ (validateFace .Triangles t s = .ok ()) := by
  refine ⟨fun sh ext int => ?_, rfl⟩
  by_cases hc : s.surfaces.contains sh = true
  · cases hM : collectMissing s.cycles (ext ++ int) with
    | nil =>
      have hval : validateFace (.Face sh ext int) t s = .ok () := by
        unfold validateFace
        dsimp only
        rw [hc, hM]
        rfl
      refine ⟨iff_of_true hval ⟨hc, (collectMissing_eq_nil_iff _ _).mp hM⟩, ?_, Or.inl hval⟩
      intro i hi
      rw [hval] at hi
      simp at hi
    | cons a as =>
      have hval : validateFace (.Face sh ext int) t s
          = .error (.Structural ⟨none, [], [], none, a :: as⟩) := by
        unfold validateFace
        dsimp only
        rw [hc, hM]
        rfl
      refine ⟨?_, ?_, Or.inr ⟨_, hval⟩⟩
      · refine iff_of_false (by rw [hval]; simp) ?_
        rintro ⟨_, hall⟩
        have := (collectMissing_eq_nil_iff s.cycles (ext ++ int)).mpr hall
        rw [hM] at this
        cases this
      · intro i hi
        rw [hval] at hi
        simp only [Except.error.injEq, ValidationError.Structural.injEq] at hi
        subst hi
        refine ⟨by rw [if_pos hc], fun h => ?_, rfl, rfl, rfl⟩
        rw [← hM]
        exact memId_collectMissing_bool s.cycles (ext ++ int) h
  · have hc' : s.surfaces.contains sh = false := Bool.not_eq_true _ |>.mp hc
    have hval : validateFace (.Face sh ext int) t s
        = .error (.Structural
            ⟨none, [], [], some sh, collectMissing s.cycles (ext ++ int)⟩) := by
      unfold validateFace
      dsimp only
      rw [hc']
      rfl
    refine ⟨?_, ?_, Or.inr ⟨_, hval⟩⟩
    · refine iff_of_false (by rw [hval]; simp) ?_
      rintro ⟨h1, _⟩
      rw [hc'] at h1
      cases h1
    · intro i hi
      rw [hval] at hi
      simp only [Except.error.injEq, ValidationError.Structural.injEq] at hi
      subst hi
      refine ⟨by rw [if_neg (by rw [hc']; exact Bool.false_ne_true)], fun h => ?_, rfl, rfl, rfl⟩
      exact memId_collectMissing_bool s.cycles (ext ++ int) h

/-- Witness for C4 at a concrete face whose surface and cycle handles are
absent from the empty store. -/
theorem face_validation_characterization_witness :
    iWitF.missing_surface = (if emptyStores.surfaces.contains sHandle0 then none else some sHandle0) :=
  (((face_validation_characterization 1 emptyStores).1 sHandle0 [cyHandle0] []).2.1 iWitF rfl).1

/-- C5: for every entity kind, a failing add leaves the aggregate store
exactly as it was, produces no handle and returns the structured validation
error; a successful add inserts the value and returns a fresh handle (one the
target store did not contain before the call). -/
theorem add_transactional (s : Stores) (t : Scalar) :
    (∀ p : Point3,
      (∀ err, validatePoint p t s = .error err → addPoint s t p = (.error err, s))
      ∧ (validatePoint p t s = .ok () →
          addPoint s t p = (.ok ⟨s.points.freshId, p⟩,
            { s with points := ⟨s.points.entries ++ [⟨s.points.freshId, p⟩]⟩ })
          ∧ s.points.contains ⟨s.points.freshId, p⟩ = false))
    ∧ (∀ c : Curve,
      (∀ err, validateCurve c t s = .error err → addCurve s t c = (.error err, s))
      ∧ (validateCurve c t s = .ok () →
          addCurve s t c = (.ok ⟨s.curves.freshId, c⟩,
            { s with curves := ⟨s.curves.entries ++ [⟨s.curves.freshId, c⟩]⟩ })
          ∧ s.curves.contains ⟨s.curves.freshId, c⟩ = false))
    ∧ (∀ sf : Surface,
      (∀ err, validateSurface sf t s = .error err → addSurface s t sf = (.error err, s))
      ∧ (validateSurface sf t s = .ok () →
          addSurface s t sf = (.ok ⟨s.surfaces.freshId, sf⟩,
            { s with surfaces := ⟨s.surfaces.entries ++ [⟨s.surfaces.freshId, sf⟩]⟩ })
          ∧ s.surfaces.contains ⟨s.surfaces.freshId, sf⟩ = false))
    ∧ (∀ v : Vertex,
      (∀ err, validateVertex v t s = .error err → addVertex s t v = (.error err, s))
      ∧ (validateVertex v t s = .ok () →
          addVertex s t v = (.ok ⟨s.vertices.freshId, v⟩,
            { s with vertices := ⟨s.vertices.entries ++ [⟨s.vertices.freshId, v⟩]⟩ })
          ∧ s.vertices.contains ⟨s.vertices.freshId, v⟩ = false))
    ∧ (∀ e : Edge,
      (∀ err, validateEdge e t s = .error err → addEdge s t e = (.error err, s))
      ∧ (validateEdge e t s = .ok () →
          addEdge s t e = (.ok ⟨s.edges.freshId, e⟩,
            { s with edges := ⟨s.edges.entries ++ [⟨s.edges.freshId, e⟩]⟩ })
          ∧ s.edges.contains ⟨s.edges.freshId, e⟩ = false))
    ∧ (∀ c : Cycle,
      (∀ err, validateCycle c t s = .error err → addCycle s t c = (.error err, s))
      ∧ (validateCycle c t s = .ok () →
          addCycle s t c = (.ok ⟨s.cycles.freshId, c⟩,
            { s with cycles := ⟨s.cycles.entries ++ [⟨s.cycles.freshId, c⟩]⟩ })
          ∧ s.cycles.contains ⟨s.cycles.freshId, c⟩ = false))
    ∧ (∀ f : Face,
      (∀ err, validateFace f t s = .error err → addFace s t f = (.error err, s))
      ∧ (validateFace f t s = .ok () →
          addFace s t f = (.ok ⟨s.faces.freshId, f⟩,
            { s with faces := ⟨s.faces.entries ++ [⟨s.faces.freshId, f⟩]⟩ })
          ∧ s.faces.contains ⟨s.faces.freshId, f⟩ = false)) := by
  refine ⟨fun p => ⟨?_, ?_⟩, fun c => ⟨?_, ?_⟩, fun sf => ⟨?_, ?_⟩, fun v => ⟨?_, ?_⟩,
    fun e => ⟨?_, ?_⟩, fun c => ⟨?_, ?_⟩, fun f => ⟨?_, ?_⟩⟩
  · intro err herr
    unfold addPoint
    rw [herr]
  · intro hok
    unfold addPoint
    rw [hok]
    exact ⟨rfl, Store.contains_fresh s.points p⟩
  · intro err herr
    unfold addCurve
    rw [herr]
  · intro hok
    unfold addCurve
    rw [hok]
    exact ⟨rfl, Store.contains_fresh s.curves c⟩
  · intro err herr
    unfold addSurface
    rw [herr]
  · intro hok
    unfold addSurface
    rw [hok]
    exact ⟨rfl, Store.contains_fresh s.surfaces sf⟩
  · intro err herr
    unfold addVertex
    rw [herr]
  · intro hok
    unfold addVertex
    rw [hok]
    exact ⟨rfl, Store.contains_fresh s.vertices v⟩
  · intro err herr
    unfold addEdge
    rw [herr]
  · intro hok
    unfold addEdge
    rw [hok]
    exact ⟨rfl, Store.contains_fresh s.edges e⟩
  · intro err herr
    unfold addCycle
    rw [herr]
  · intro hok
    unfold addCycle
    rw [hok]
    exact ⟨rfl, Store.contains_fresh s.cycles c⟩
  · intro err herr
    unfold addFace
    rw [herr]
  · intro hok
    unfold addFace
    rw [hok]
    exact ⟨rfl, Store.contains_fresh s.faces f⟩

/-- Witness for C5: a concrete failing vertex add on the empty store returns
the structural error and the unchanged store. -/
theorem add_transactional_witness :
    addVertex emptyStores 1 vA = (.error (.Structural StructuralIssues.default), emptyStores) :=
  ((add_transactional emptyStores 1).2.2.2.1 vA).1
    (ValidationError.Structural StructuralIssues.default) rfl

end Fornjot
